import Mathlib

/-!
Verification model of the gswarm-sidecar log monitoring and delivery pipeline
(package `logs`, `transmitter` and collaborators), shallowly embedded over
`List Char` strings and pure state-passing functions.

Strings are modelled as `List Char`.  Go's `regexp` calls in `scrubPII` are
hand-compiled to deterministic matchers below; each matcher documents the
regular expression it implements and the reasoning that eliminates
backtracking (Go's RE2 uses leftmost-first, Perl-style alternation order).
-/

set_option maxHeartbeats 1000000

namespace Gswarm

/-- Decidable test that `n` begins `h` (needle is a leading segment of hay). -/
def begWith : List Char → List Char → Bool
  | [], _ => true
  | _ :: _, [] => false
  | a :: as, b :: bs => a = b && begWith as bs

/-- Decidable test that `n` occurs as a contiguous substring of `s`
(Go's `strings.Contains`). -/
def hasSub (n : List Char) : List Char → Bool
  | [] => begWith n []
  | c :: rest => begWith n (c :: rest) || hasSub n rest

/-- Length of the maximal leading run of characters satisfying `p`. -/
def takeClassLen (p : Char → Bool) : List Char → Nat
  | [] => 0
  | c :: rest => if p c then takeClassLen p rest + 1 else 0

/-- First index at which `sep` begins inside `s` (Go's `strings.Index`). -/
def findSub (sep : List Char) : List Char → Option Nat
  | [] => if sep.isEmpty then some 0 else none
  | c :: rest =>
    if begWith sep (c :: rest) then some 0
    else (findSub sep rest).map (· + 1)

/-- Go `strings.SplitN(s, sep, n)` for `n ≥ 0` and non-empty `sep`:
split around the first `n-1` occurrences of `sep`, last part keeps the rest. -/
def splitNGo (sep : List Char) : Nat → List Char → List (List Char)
  | 0, _ => []
  | 1, s => [s]
  | Nat.succ (Nat.succ k), s =>
    match findSub sep s with
    | none => [s]
    | some i => s.take i :: splitNGo sep (k + 1) (s.drop (i + sep.length))

/-- Fuelled worker for `splitAllGo`; fuel `s.length` always suffices for a
non-empty separator because every recursive step drops at least one char. -/
def splitAllFuel (sep : List Char) : Nat → List Char → List (List Char)
  | 0, s => [s]
  | f + 1, s =>
    match findSub sep s with
    | none => [s]
    | some i => s.take i :: splitAllFuel sep f (s.drop (i + sep.length))

/-- Go `strings.Split(s, sep)` (unlimited splits) for non-empty `sep`. -/
def splitAllGo (sep : List Char) (s : List Char) : List (List Char) :=
  splitAllFuel sep s.length s

/-- Go `unicode.IsSpace` restricted to the ASCII whitespace this system sees. -/
def isSpaceGo (c : Char) : Bool :=
  c = ' ' || c = '\t' || c = '\n' || c = '\r' || c = '\x0b' || c = '\x0c'

/-- Go `strings.TrimSpace` over ASCII whitespace. -/
def trimSpaceL (s : List Char) : List Char :=
  ((s.dropWhile isSpaceGo).reverse.dropWhile isSpaceGo).reverse

/-- Go `strings.Trim(s, cutset)`: strip leading and trailing chars of `cut`. -/
def trimCutset (cut : List Char) (s : List Char) : List Char :=
  ((s.dropWhile (fun c => cut.contains c)).reverse.dropWhile
      (fun c => cut.contains c)).reverse

/-- Go `strings.ToLower` on ASCII. -/
def toLowerL (s : List Char) : List Char := s.map Char.toLower

/-! ### Character classes used by the `scrubPII` regular expressions -/

/-- RE2 word character (for `\b`): `[0-9A-Za-z_]`. -/
def isWordC (c : Char) : Bool := c.isAlphanum || c = '_'

/-- Hex digit `[a-fA-F0-9]`. -/
def isHexC (c : Char) : Bool :=
  c.isDigit || ('a' ≤ c && c ≤ 'f') || ('A' ≤ c && c ≤ 'F')

/-- RE2 `\s`: `[\t\n\f\r ]`. -/
def isSpaceRE2 (c : Char) : Bool :=
  c = ' ' || c = '\t' || c = '\n' || c = '\x0c' || c = '\r'

/-- Email local-part class `[a-zA-Z0-9._%+-]`. -/
def emailLocalC (c : Char) : Bool :=
  c.isAlphanum || c = '.' || c = '_' || c = '%' || c = '+' || c = '-'

/-- Email domain class `[a-zA-Z0-9.-]`. -/
def emailDomainC (c : Char) : Bool := c.isAlphanum || c = '.' || c = '-'

/-- Serial/device-id value class `[a-zA-Z0-9\-]`. -/
def serialValC (c : Char) : Bool := c.isAlphanum || c = '-'

/-- Serial/device-id separator class `[\s:=]`. -/
def serialSepC (c : Char) : Bool := isSpaceRE2 c || c = ':' || c = '='

/-- A `\b` between the previous character (`none` = start of string) and a
word character that follows. -/
def boundaryOk : Option Char → Bool
  | none => true
  | some c => !(isWordC c)

/-- A `\b` after a word character: next char absent or not a word char. -/
def afterOk : List Char → Bool
  | [] => true
  | c :: _ => !(isWordC c)

/-! ### The six matchers of `scrubPII`, one per `regexp.MustCompile`.

Each `…ML prev s` returns the length of the (leftmost-first) match starting
at the head of `s`, where `prev` is the character immediately before `s` in
the original string (`none` at the start), or `none` if no match starts here.
All matchers consume at least one character when they fire. -/

/-- Domain backtracking for the email matcher: the regex tail is
`[a-zA-Z0-9.-]+\.[a-zA-Z]{2,}`.  Since `.` and letters belong to the domain
class, the greedy domain run is cut back to the largest length `k ≥ 1` whose
next char is `.` followed by ≥ 2 letters; the `{2,}` then greedily takes the
whole letter run.  `k` counts down from the maximal run length minus one. -/
def emailDomTry (rest2 : List Char) : Nat → Option Nat
  | 0 => none
  | k + 1 =>
    if rest2.get? (k + 1) = some '.' then
      let t := takeClassLen Char.isAlpha (rest2.drop (k + 2))
      if 2 ≤ t then some ((k + 1) + 1 + t) else emailDomTry rest2 k
    else emailDomTry rest2 k

/-- `[a-zA-Z0-9._%+-]+@[a-zA-Z0-9.-]+\.[a-zA-Z]{2,}` (emailRegex).
The local class excludes `@`, so the greedy local run is forced. -/
def emailML (_prev : Option Char) (s : List Char) : Option Nat :=
  let l := takeClassLen emailLocalC s
  if l = 0 then none
  else
    match s.drop l with
    | '@' :: rest2 =>
      let d := takeClassLen emailDomainC rest2
      match d with
      | 0 => none
      | dd + 1 => (emailDomTry rest2 dd).map (fun len2 => l + 1 + len2)
    | _ => none

/-- One `[0-9]{1,3}\.` group of the IPv4 regex.  A digit run longer than 3
can never be followed by `.` after backtracking (every shorter cut ends
before another digit), so the group is deterministic. -/
def octetDot (s : List Char) : Option Nat :=
  let d := takeClassLen Char.isDigit s
  if 1 ≤ d && d ≤ 3 then
    match s.get? d with
    | some '.' => some (d + 1)
    | _ => none
  else none

/-- `\b(?:[0-9]{1,3}\.){3}[0-9]{1,3}\b` (ipRegex).  The final octet is
deterministic for the same reason as `octetDot`: any cut of the digit run
ends right before a digit, which is a word char, so `\b` fails there. -/
def ipML (prev : Option Char) (s : List Char) : Option Nat :=
  if boundaryOk prev then
    match octetDot s with
    | some a =>
      match octetDot (s.drop a) with
      | some b =>
        match octetDot (s.drop (a + b)) with
        | some c =>
          let s4 := s.drop (a + b + c)
          let d := takeClassLen Char.isDigit s4
          if 1 ≤ d && d ≤ 3 && afterOk (s4.drop d) then some (a + b + c + d)
          else none
        | none => none
      | none => none
    | none => none
  else none

/-- First `n` characters exist and are hex digits. -/
def allHexTake : List Char → Nat → Bool
  | _, 0 => true
  | [], _ + 1 => false
  | c :: r, n + 1 => isHexC c && allHexTake r n

/-- `0x[a-fA-F0-9]{40}` (walletRegex); an exact-count match of 42 chars. -/
def walletML (_prev : Option Char) (s : List Char) : Option Nat :=
  match s with
  | '0' :: 'x' :: rest => if allHexTake rest 40 then some 42 else none
  | _ => none

/-- Case-insensitive `begWith` (for the `(?i)` alternations). -/
def ciBegWith : List Char → List Char → Bool
  | [], _ => true
  | _ :: _, [] => false
  | a :: as, b :: bs => a.toLower = b.toLower && ciBegWith as bs

/-- The secret-name denylist of envVarRegex, in the source's alternation
order: `(API_KEY|SECRET|PASSWORD|TOKEN|JWT|PRIVATE_KEY|ENV|CONFIG|`
`DATABASE_URL|DB_PASS|ACCESS_KEY|SECRET_KEY)`. -/
def envKeywords : List (List Char) :=
  [("API_KEY").toList, ("SECRET").toList, ("PASSWORD").toList,
   ("TOKEN").toList, ("JWT").toList, ("PRIVATE_KEY").toList,
   ("ENV").toList, ("CONFIG").toList, ("DATABASE_URL").toList,
   ("DB_PASS").toList, ("ACCESS_KEY").toList, ("SECRET_KEY").toList]

/-- Alternation loop of `(?i)(KEY1|…)=[^\s]+` (envVarRegex): first keyword,
in order, whose continuation `=` + a non-empty run of non-space completes. -/
def envKwTry (s : List Char) : List (List Char) → Option Nat
  | [] => none
  | kw :: rest =>
    if ciBegWith kw s then
      match s.drop kw.length with
      | '=' :: v =>
        let n := takeClassLen (fun c => !(isSpaceRE2 c)) v
        if 1 ≤ n then some (kw.length + 1 + n) else envKwTry s rest
      | _ => envKwTry s rest
    else envKwTry s rest

/-- `(?i)(API_KEY|SECRET|…)=[^\s]+` (envVarRegex). -/
def envVarML (_prev : Option Char) (s : List Char) : Option Nat :=
  envKwTry s envKeywords

/-- Keyword part of serialRegex, `(?i)(serial|device[_-]?id|uuid|guid|hwid|`
`cpuid|gpuid)`: the alternatives are pairwise prefix-incompatible, so at
most one fires at a position; `[_-]?` is greedy (separator form first). -/
def serialKwLen (s : List Char) : Option Nat :=
  if ciBegWith (("serial").toList) s then some 6
  else if ciBegWith (("device").toList) s then
    match s.drop 6 with
    | c :: rest =>
      if (c = '_' || c = '-') && ciBegWith (("id").toList) rest then some 9
      else if ciBegWith (("id").toList) (s.drop 6) then some 8
      else none
    | [] => none
  else if ciBegWith (("uuid").toList) s then some 4
  else if ciBegWith (("guid").toList) s then some 4
  else if ciBegWith (("hwid").toList) s then some 4
  else if ciBegWith (("cpuid").toList) s then some 5
  else if ciBegWith (("gpuid").toList) s then some 5
  else none

/-- `(?i)(serial|device[_-]?id|uuid|guid|hwid|cpuid|gpuid)[\s:=]+`
`[a-zA-Z0-9\-]{6,}` (serialRegex).  The separator and value classes are
disjoint, so greedy runs are deterministic. -/
def serialML (_prev : Option Char) (s : List Char) : Option Nat :=
  match serialKwLen s with
  | some k =>
    let rest := s.drop k
    let sep := takeClassLen serialSepC rest
    if 1 ≤ sep then
      let v := takeClassLen serialValC (rest.drop sep)
      if 6 ≤ v then some (k + sep + v) else none
    else none
  | none => none

/-- `\b[a-fA-F0-9]{16,}\b` (longHexRegex).  Cutting the greedy hex run
always lands before another hex (word) char, so the trailing `\b` forces
the maximal run. -/
def longHexML (prev : Option Char) (s : List Char) : Option Nat :=
  if boundaryOk prev then
    let h := takeClassLen isHexC s
    if 16 ≤ h && afterOk (s.drop h) then some h else none
  else none

/-! ### Replacement engine (Go `Regexp.ReplaceAllString` / `MatchString`) -/

/-- A compiled regex is its match-at-position function. -/
abbrev MatcherFn := Option Char → List Char → Option Nat

/-- The fixed replacement text of `scrubPII`. -/
def marker : List Char := ("[REDACTED]").toList

/-- Whether a match starts anywhere in `s`, tracking the previous original
character for `\b` (Go `MatchString`). -/
def hasMatchGo (ml : MatcherFn) : Option Char → List Char → Bool
  | _, [] => false
  | prev, c :: rest => (ml prev (c :: rest)).isSome || hasMatchGo ml (some c) rest

/-- Fuelled scan of `ReplaceAllString(s, "[REDACTED]")`: replace successive
leftmost non-overlapping matches, keeping `\b` context from the original
string.  Every match consumes ≥ 1 char, so fuel `s.length` suffices. -/
def replaceFuel (ml : MatcherFn) : Nat → Option Char → List Char → List Char
  | 0, _, s => s
  | _ + 1, _, [] => []
  | f + 1, prev, c :: rest =>
    match ml prev (c :: rest) with
    | some len =>
      marker ++ replaceFuel ml f ((c :: rest).get? (len - 1)) (rest.drop (len - 1))
    | none => c :: replaceFuel ml f (some c) rest

/-- Go `re.MatchString(s)`. -/
def reMatch (ml : MatcherFn) (s : List Char) : Bool := hasMatchGo ml none s

/-- Go `re.ReplaceAllString(s, "[REDACTED]")`. -/
def reReplace (ml : MatcherFn) (s : List Char) : List Char :=
  replaceFuel ml s.length none s

/-- One iteration of the `for _, re := range regexes` loop in `scrubMap` /
`scrubSlice`: `if re.MatchString(val) { val = re.ReplaceAllString(…) }`. -/
def scrubStep (s : List Char) (ml : MatcherFn) : List Char :=
  if reMatch ml s then reReplace ml s else s

/-- The regexes of `scrubPII` in source order: email, ip, wallet, envVar,
serial, longHex. -/
def piiRegexes : List MatcherFn :=
  [emailML, ipML, walletML, envVarML, serialML, longHexML]

/-- Effect of the regex loop on one string value. -/
def scrubString (s : List Char) : List Char := piiRegexes.foldl scrubStep s

/-- Some string of the payload still matches a sensitive pattern. -/
def matchesAny (s : List Char) : Bool := piiRegexes.any (fun ml => reMatch ml s)

/-! ### The `details` payload: nested maps, lists and primitives -/

mutual
/-- A decoded JSON value (`interface{}` in the Go payload). -/
inductive JValue where
  | str : List Char → JValue
  | num : Int → JValue
  | boolean : Bool → JValue
  | null : JValue
  | obj : JObj → JValue
  | arr : JArr → JValue

/-- A `map[string]interface{}` as an association list. -/
inductive JObj where
  | nil : JObj
  | cons : List Char → JValue → JObj → JObj

/-- A `[]interface{}`. -/
inductive JArr where
  | nil : JArr
  | cons : JValue → JArr → JArr
end

mutual
/-- `scrubMap`: scrub every value of a map (keys untouched). -/
def scrubMap : JObj → JObj
  | .nil => .nil
  | .cons k v rest => .cons k (scrubVal v) (scrubMap rest)

/-- `scrubSlice`: scrub every element of a slice. -/
def scrubSlice : JArr → JArr
  | .nil => .nil
  | .cons v rest => .cons (scrubVal v) (scrubSlice rest)

/-- The shared `switch val := v.(type)` body of `scrubMap`/`scrubSlice`:
strings run the regex loop, maps and slices recurse, other leaves pass
through unchanged. -/
def scrubVal : JValue → JValue
  | .str s => .str (scrubString s)
  | .obj m => .obj (scrubMap m)
  | .arr a => .arr (scrubSlice a)
  | .num n => .num n
  | .boolean b => .boolean b
  | .null => .null
end

mutual
/-- Every string value of a map satisfies `p`. -/
def objOk (p : List Char → Bool) : JObj → Bool
  | .nil => true
  | .cons _ v rest => valOk p v && objOk p rest

/-- Every string value of a slice satisfies `p`. -/
def arrOk (p : List Char → Bool) : JArr → Bool
  | .nil => true
  | .cons v rest => valOk p v && arrOk p rest

/-- Every string value of a value tree satisfies `p`. -/
def valOk (p : List Char → Bool) : JValue → Bool
  | .str s => p s
  | .obj m => objOk p m
  | .arr a => arrOk p a
  | .num _ => true
  | .boolean _ => true
  | .null => true
end

/-- Field lookup in a details map. -/
def objLookup : JObj → List Char → Option JValue
  | .nil, _ => none
  | .cons k v rest, key => if k = key then some v else objLookup rest key

/-- Project an optional value to a string payload. -/
def strOf : Option JValue → Option (List Char)
  | some (.str s) => some s
  | _ => none

/-- Collect the string elements of a slice. -/
def arrToStrs : JArr → List (List Char)
  | .nil => []
  | .cons (.str s) rest => s :: arrToStrs rest
  | .cons _ rest => arrToStrs rest

/-- Project an optional value to a list of strings. -/
def arrStrings : Option JValue → Option (List (List Char))
  | some (.arr a) => some (arrToStrs a)
  | _ => none

/-- Build a `JArr` of strings. -/
def strArr : List (List Char) → JArr
  | [] => .nil
  | s :: rest => .cons (.str s) (strArr rest)

/-! ### Events and the parser (`MetricEvent`, `parseSwarmLogLine`) -/

/-- `MetricEvent`; timestamps are abstract instants modelled as `Nat`. -/
structure MetricEvent where
  nodeId : List Char
  timestamp : Nat
  eventType : List Char
  details : JObj

/-- `scrubPII`: redact the event's `Details` in place. -/
def scrubPII (event : MetricEvent) : MetricEvent :=
  { event with details := scrubMap event.details }

def sepDash : List Char := (" - ").toList

def joinMarkerStr : List Char := ("Joining swarm with initial_peers").toList

/-- `extractPeersFromLine`: take the slice between the first `[` and the
first `]` (nil when missing or inverted), split on `", "`, trim `"' "`. -/
def extractPeersFromLine (line : List Char) : List (List Char) :=
  match findSub (['[']) line, findSub ([']']) line with
  | some st, some en =>
    if en ≤ st then []
    else
      let peersStr := (line.drop (st + 1)).take (en - st - 1)
      (splitAllGo ((", ").toList) peersStr).map (trimCutset (("' ").toList))
  | _, _ => []

/-- The no-op `switch eventType` statement at the end of
`parseSwarmLogLine` (each recognized level maps to itself). -/
def normalizeLevel (e : List Char) : List Char :=
  if e = ("error").toList then ("error").toList
  else if e = ("info").toList then ("info").toList
  else if e = ("debug").toList then ("debug").toList
  else e

/-- Body of `parseSwarmLogLine`.  `tryTs` abstracts
`time.Parse("2006-01-02 15:04:05,000", …)` and `now` abstracts
`time.Now()`; every return site of the source builds a non-nil event. -/
def parseSwarmCore (tryTs : List Char → Option Nat) (now : Nat)
    (nodeId line : List Char) : MetricEvent :=
  let parts := splitNGo sepDash 4 line
  if parts.length < 4 then
    { nodeId := nodeId, timestamp := now, eventType := ("raw").toList,
      details := .cons (("raw_line").toList) (.str line) .nil }
  else
    let ts := (tryTs (parts.getD 0 [])).getD now
    let level := trimSpaceL (parts.getD 1 [])
    let logger := trimSpaceL (parts.getD 2 [])
    let msg := trimSpaceL (parts.getD 3 [])
    if hasSub joinMarkerStr msg then
      { nodeId := nodeId, timestamp := ts, eventType := ("peer_event").toList,
        details := .cons (("action").toList) (.str (("join").toList))
          (.cons (("peers").toList) (.arr (strArr (extractPeersFromLine msg)))
            (.cons (("logger").toList) (.str logger)
              (.cons (("raw").toList) (.str msg) .nil))) }
    else
      { nodeId := nodeId, timestamp := ts,
        eventType := normalizeLevel (toLowerL level),
        details := .cons (("logger").toList) (.str logger)
          (.cons (("message").toList) (.str msg) .nil) }

/-- `parseSwarmLogLine` returns `*MetricEvent`; all paths are non-nil. -/
def parseSwarmLogLine (tryTs : List Char → Option Nat) (now : Nat)
    (nodeId line : List Char) : Option MetricEvent :=
  some (parseSwarmCore tryTs now nodeId line)

/-! ### Checkpoint store (`fileOffsets`, `loadOffsets`, `Start`) -/

/-- In-memory `fileOffsets` map (`map[string]int64`). -/
abbrev OffMap := List (List Char × Int)

def offGet : OffMap → List Char → Option Int
  | [], _ => none
  | (k0, v0) :: rest, k => if k0 = k then some v0 else offGet rest k

def offSet : OffMap → List Char → Int → OffMap
  | [], k, v => [(k, v)]
  | (k0, v0) :: rest, k, v =>
    if k0 = k then (k0, v) :: rest else (k0, v0) :: offSet rest k v

/-- Outcome of `ioutil.ReadFile(offsetsFile)`. -/
inductive ReadResult where
  | notExist : ReadResult
  | readErr : ReadResult
  | ok : List Char → ReadResult

/-- `loadOffsets`: missing file yields the empty map; a read error or a
JSON decode failure is an error.  `parseJson` abstracts `json.Unmarshal`. -/
def loadOffsets (parseJson : List Char → Option OffMap) :
    ReadResult → Except Unit OffMap
  | .notExist => .ok []
  | .readErr => .error ()
  | .ok data =>
    match parseJson data with
    | some m => .ok m
    | none => .error ()

/-- The offsets-loading prologue of `Monitor.Start`: a load failure is
logged and replaced by an empty map, never fatal. -/
def startOffsets (parseJson : List Char → Option OffMap)
    (r : ReadResult) : OffMap :=
  match loadOffsets parseJson r with
  | .ok m => m
  | .error _ => []

/-- Resume-position computation of `tailLogFileWithOffset` (and the
activity variant): a stored offset wins; otherwise fall back to the last
`n` lines (`InitialTailLines`, default 100) of the `total`-line file, and
to 0 if the file could not be counted. -/
def seekLineFor (offsets : OffMap) (absPath : List Char)
    (initialTailLines : Int) (countRes : Option Int) : Int :=
  match offGet offsets absPath with
  | some off => off
  | none =>
    match countRes with
    | none => 0
    | some total =>
      let n := if initialTailLines ≤ 0 then 100 else initialTailLines
      if total - n < 0 then 0 else total - n

/-! ### Batch posting (`postBatchWithOffset`) and the tail loop -/

/-- `postBatchWithOffset`'s success predicate: any transport error fails;
a status code below `statusCodeError = 300` succeeds (note: no lower
bound, so 1xx statuses count as success here). -/
def postStatusOk : Option Nat → Bool
  | none => false
  | some code => code < 300

/-- `postBatchWithOffset`: scrub the batch in place, POST it, and on
success write the checkpoint `offsets[absPath] = lineNum` (persist failure
is logged only, so the returned map is authoritative).  Returns the
success flag, the offsets map, and the (mutated) scrubbed batch. -/
def postBatchWithOffsetM (resp : Option Nat) (batch : List MetricEvent)
    (absPath : List Char) (lineNum : Int) (offsets : OffMap) :
    Bool × OffMap × List MetricEvent :=
  let scrubbed := batch.map scrubPII
  if postStatusOk resp then (true, offSet offsets absPath lineNum, scrubbed)
  else (false, offsets, scrubbed)

/-- Per-source tail-loop state. -/
structure TailSt where
  batch : List MetricEvent
  offsets : OffMap
  lineNum : Int

/-- One `select` arm arrival in the tail loop (non-nil lines only). -/
inductive TailInp where
  | newLine : List Char → TailInp
  | timerFire : TailInp
  | shutdown : TailInp

/-- Observable effects of one loop iteration. -/
structure StepOut where
  flushed : Bool
  flushOk : Bool
  timerReset : Bool

/-- One iteration of the `for { select { … } }` loop of
`tailLogFileWithOffset` / `tailLogFileWithOffsetAndActivity`:
a new line is parsed and appended, a full batch (or an elapsed flush timer
with a non-empty batch, or shutdown with a non-empty batch) triggers a
post; a failed post keeps the batch; the flush timer is reset on every
appended line and after every timer fire. -/
def tailStep (batchSize : Nat) (tryTs : List Char → Option Nat) (now : Nat)
    (nodeId absPath : List Char) (resp : Option Nat) (st : TailSt) :
    TailInp → TailSt × StepOut
  | .newLine text =>
    let ln := st.lineNum + 1
    match parseSwarmLogLine tryTs now nodeId text with
    | some ev =>
      let batch := st.batch ++ [ev]
      if batchSize ≤ batch.length then
        let r := postBatchWithOffsetM resp batch absPath ln st.offsets
        ({ batch := if r.1 then [] else r.2.2, offsets := r.2.1,
           lineNum := ln },
         { flushed := true, flushOk := r.1, timerReset := true })
      else
        ({ batch := batch, offsets := st.offsets, lineNum := ln },
         { flushed := false, flushOk := false, timerReset := true })
    | none =>
      ({ st with lineNum := ln },
       { flushed := false, flushOk := false, timerReset := false })
  | .timerFire =>
    if st.batch.length = 0 then
      (st, { flushed := false, flushOk := false, timerReset := true })
    else
      let r := postBatchWithOffsetM resp st.batch absPath st.lineNum st.offsets
      ({ st with batch := if r.1 then [] else r.2.2, offsets := r.2.1 },
       { flushed := true, flushOk := r.1, timerReset := true })
  | .shutdown =>
    if st.batch.length = 0 then
      (st, { flushed := false, flushOk := false, timerReset := false })
    else
      let r := postBatchWithOffsetM resp st.batch absPath st.lineNum st.offsets
      ({ st with batch := if r.1 then [] else r.2.2, offsets := r.2.1 },
       { flushed := true, flushOk := r.1, timerReset := false })

/-- `flushInterval` selection: default 10s unless `BatchFlushInterval > 0`. -/
def flushIntervalFor (batchFlushInterval : Int) : Int :=
  if 0 < batchFlushInterval then batchFlushInterval else 10

/-! ### Resume skip and activity signals
(`tailLogFileWithOffsetAndActivity`) -/

/-- The silent resume loop `for lineNum < seekLine { <-t.Lines; lineNum++ }`:
consume lines without emitting anything, then hand the rest to the main
loop.  Returns the line counter and the remaining lines. -/
def resumeSkip (seekLine : Int) : Int → List (List Char) → Int × List (List Char)
  | ln, [] => (ln, [])
  | ln, l :: rest =>
    if ln < seekLine then resumeSkip seekLine (ln + 1) rest
    else (ln, l :: rest)

/-- Number of activity-signal sends performed while consuming `lines`:
the main loop sends one (non-blocking, latest-wins) signal per line it
processes; the resume-skip loop sends none. -/
def runSignals (seekLine : Int) (lines : List (List Char)) : Nat :=
  ((resumeSkip seekLine 0 lines).2).length

/-! ### Down detector (`Monitor.Start`'s goroutine) -/

/-- Down-detector state: `lastEventTime` and `alertSent`. -/
structure DetSt where
  lastEventTime : Nat
  alertSent : Bool

/-- One wake-up of the detector goroutine: an activity ping, or a 2-second
poll tick whose Telegram send (if attempted) succeeds iff `sendOk`. -/
inductive DetInp where
  | activity : Nat → DetInp
  | tick : Nat → Bool → DetInp

/-- `DownAlertDelay` selection: default 300s unless positive. -/
def detDelay (cfgDelay : Int) : Int := if cfgDelay ≤ 0 then 300 else cfgDelay

/-- One iteration of the detector loop.  On activity the clock resets and
`alertSent` clears.  On a tick, if no alert is outstanding and the silence
exceeds `delay`, an alert send is attempted; only a successful send sets
`alertSent` (a failed send is logged and leaves the state unchanged).
Returns the new state and whether a send was attempted. -/
def detStep (delay : Nat) (st : DetSt) : DetInp → DetSt × Bool
  | .activity now => ({ lastEventTime := now, alertSent := false }, false)
  | .tick now sendOk =>
    if !st.alertSent && delay < now - st.lastEventTime then
      (if sendOk then { st with alertSent := true } else st, true)
    else (st, false)

/-- Run the detector over a sequence of wake-ups, counting send attempts. -/
def detRun (delay : Nat) : DetSt → List DetInp → DetSt × Nat
  | st, [] => (st, 0)
  | st, inp :: rest =>
    let r := detStep delay st inp
    let rr := detRun delay r.1 rest
    (rr.1, (if r.2 then 1 else 0) + rr.2)

/-- Recognize a poll tick (used to describe activity-free episodes). -/
def isTick : DetInp → Bool
  | .tick _ _ => true
  | .activity _ => false

/-! ### Delivery client (`transmitter.sendWithRetry`) -/

/-- Success predicate of the transmitter:
`resp.StatusCode >= 200 && resp.StatusCode < 300`; a transport error
(`none`) is never a success. -/
def is2xx : Option Nat → Bool
  | none => false
  | some code => decide (200 ≤ code) && decide (code < 300)

/-- `[s, s+1, …, s+n-1]`: the seconds slept by the backoff. -/
def sleepSeq (s : Nat) : Nat → List Nat
  | 0 => []
  | n + 1 => s :: sleepSeq (s + 1) n

/-- The `for i := 0; i <= t.cfg.API.RetryCount; i++` loop of
`sendWithRetry`, indexed by the attempt number `i` and the remaining
retries `r = RetryCount - i`.  `resp i` abstracts attempt `i`'s outcome.
Returns (success, number of attempts performed, seconds slept between
attempts: `time.Sleep((i+1) * time.Second)` after a failed attempt `i`). -/
def sendLoop (resp : Nat → Option Nat) : Nat → Nat → Bool × Nat × List Nat
  | i, 0 => if is2xx (resp i) then (true, 1, []) else (false, 1, [])
  | i, r + 1 =>
    if is2xx (resp i) then (true, 1, [])
    else
      let t := sendLoop resp (i + 1) r
      (t.1, t.2.1 + 1, (i + 1) :: t.2.2)

/-- `sendWithRetry` with `RetryCount = retryCount`. -/
def sendWithRetry (retryCount : Nat) (resp : Nat → Option Nat) :
    Bool × Nat × List Nat :=
  sendLoop resp 0 retryCount

/-! ### Concrete fixtures used by witnesses and counterexamples -/

/-- A string whose wallet-address redaction uncovers a fresh IPv4 match:
`0x` + 40 hex digits directly followed by `1.2.3.4` (the leading `a`
suppresses the left `\b` of ipRegex until the wallet is replaced). -/
def cxStr : List Char :=
  ("0xaaaaaaaaaaaaaaaaaaaaaaaaaaaaaaaaaaaaaaaa1.2.3.4").toList

def msgKey : List Char := ("msg").toList

def cxDetails : JObj := .cons msgKey (.str cxStr) .nil

def cxEvent : MetricEvent :=
  { nodeId := ("node-1").toList, timestamp := 0,
    eventType := ("info").toList, details := cxDetails }

/-- A harmless details map. -/
def benignDetails : JObj :=
  .cons (("message").toList) (.str (("hello").toList)) .nil

/-- String-check used by the redaction invariant: either no sensitive
pattern matches any more, or the string carries the redaction marker. -/
def checkMB (s : List Char) : Bool := !matchesAny s || hasSub marker s

/-- String-check used for idempotence: no sensitive pattern matches. -/
def noMatchB (s : List Char) : Bool := !matchesAny s

/-- A swarm log line whose message carries the peer-join example
`['a','b']` (no space after the comma). -/
def c6Line : List Char :=
  ("2025-01-01 00:00:00,000 - INFO - hivemind - Joining swarm with initial_peers ['a','b']").toList

/-- The same line with `['a', 'b']` (comma-space separators). -/
def c6LineSp : List Char :=
  ("2025-01-01 00:00:00,000 - INFO - hivemind - Joining swarm with initial_peers ['a', 'b']").toList

/-- Well-formed bracket condition of `extractPeersFromLine`: both `[` and
`]` occur and the first `]` comes after the first `[`. -/
def bracketsOk (msg : List Char) : Bool :=
  match findSub (['[']) msg, findSub ([']']) msg with
  | some st, some en => st < en
  | _, _ => false

end Gswarm

namespace Gswarm

/-! ## Substring and marker lemmas -/

theorem begWith_append (n t : List Char) : begWith n (n ++ t) = true := by
  induction n with
  | nil => rfl
  | cons a as ih => simp [begWith, ih]

theorem hasSub_here {n s : List Char} (h : begWith n s = true) :
    hasSub n s = true := by
  cases s with
  | nil => simpa [hasSub] using h
  | cons c rest => simp [hasSub, h]

theorem hasSub_below {n r : List Char} (c : Char) (h : hasSub n r = true) :
    hasSub n (c :: r) = true := by
  simp [hasSub, h]

theorem hasSub_marker_append (t : List Char) :
    hasSub marker (marker ++ t) = true :=
  hasSub_here (begWith_append marker t)

theorem replaceFuel_marker (ml : MatcherFn) :
    ∀ (fuel : Nat) (prev : Option Char) (s : List Char), s.length ≤ fuel →
      hasMatchGo ml prev s = true →
      hasSub marker (replaceFuel ml fuel prev s) = true := by
  intro fuel
  induction fuel with
  | zero =>
    intro prev s hle hm
    cases s with
    | nil => simp [hasMatchGo] at hm
    | cons c rest => simp at hle
  | succ f ih =>
    intro prev s hle hm
    cases s with
    | nil => simp [hasMatchGo] at hm
    | cons c rest =>
      cases hml : ml prev (c :: rest) with
      | some len =>
        simp only [replaceFuel, hml]
        exact hasSub_marker_append _
      | none =>
        have hm' : hasMatchGo ml (some c) rest = true := by
          simpa [hasMatchGo, hml] using hm
        have hlen : rest.length ≤ f := by
          simpa using Nat.le_of_succ_le_succ hle
        simp only [replaceFuel, hml]
        exact hasSub_below c (ih (some c) rest hlen hm')

theorem reReplace_marker {ml : MatcherFn} {s : List Char}
    (h : reMatch ml s = true) : hasSub marker (reReplace ml s) = true :=
  replaceFuel_marker ml s.length none s le_rfl h

theorem scrubStep_cases (s : List Char) (ml : MatcherFn) :
    scrubStep s ml = s ∨ hasSub marker (scrubStep s ml) = true := by
  by_cases h : reMatch ml s = true
  · right
    simpa [scrubStep, h] using reReplace_marker h
  · left
    simp [scrubStep, h]

theorem scrubStep_marker (s : List Char) (ml : MatcherFn)
    (h : hasSub marker s = true) : hasSub marker (scrubStep s ml) = true := by
  by_cases hm : reMatch ml s = true
  · simpa [scrubStep, hm] using reReplace_marker hm
  · simpa [scrubStep, hm] using h

theorem foldl_scrub_marker (rs : List MatcherFn) :
    ∀ (s : List Char), hasSub marker s = true →
      hasSub marker (rs.foldl scrubStep s) = true := by
  induction rs with
  | nil => intro s h; simpa using h
  | cons re rest ih =>
    intro s h
    simpa [List.foldl] using ih _ (scrubStep_marker s re h)

theorem foldl_scrub_cases (rs : List MatcherFn) :
    ∀ (s : List Char),
      rs.foldl scrubStep s = s ∨ hasSub marker (rs.foldl scrubStep s) = true := by
  induction rs with
  | nil => intro s; left; rfl
  | cons re rest ih =>
    intro s
    rcases scrubStep_cases s re with h | h
    · simpa [List.foldl, h] using ih s
    · right
      simpa [List.foldl] using foldl_scrub_marker rest _ h

theorem foldl_match_marker :
    ∀ (rs : List MatcherFn) (s : List Char) (ml : MatcherFn), ml ∈ rs →
      reMatch ml (rs.foldl scrubStep s) = true →
      hasSub marker (rs.foldl scrubStep s) = true := by
  intro rs
  induction rs with
  | nil => intro s ml hmem; cases hmem
  | cons re rest ih =>
    intro s ml hmem h
    rcases List.mem_cons.mp hmem with rfl | hmem'
    · by_cases hr : reMatch ml s = true
      · have h1 : hasSub marker (scrubStep s ml) = true := by
          simpa [scrubStep, hr] using reReplace_marker hr
        simpa [List.foldl] using foldl_scrub_marker rest _ h1
      · have hstep : scrubStep s ml = s := by simp [scrubStep, hr]
        rcases foldl_scrub_cases rest s with he | hmk
        · have : reMatch ml s = true := by
            simpa [List.foldl, hstep, he] using h
          exact absurd this hr
        · simpa [List.foldl, hstep] using hmk
    · have h' : reMatch ml (rest.foldl scrubStep (scrubStep s re)) = true := by
        simpa [List.foldl] using h
      simpa [List.foldl] using ih (scrubStep s re) ml hmem' h'

theorem scrubString_no_live_match (s : List Char) :
    checkMB (scrubString s) = true := by
  cases hM : matchesAny (scrubString s) with
  | false => simp [checkMB, hM]
  | true =>
    obtain ⟨ml, hmem, hr⟩ := List.any_eq_true.mp hM
    have hmk := foldl_match_marker piiRegexes s ml hmem hr
    simp only [checkMB, hM, Bool.not_true, Bool.false_or]
    simpa [scrubString] using hmk

theorem foldl_scrub_id (rs : List MatcherFn) :
    ∀ (s : List Char), (∀ ml ∈ rs, reMatch ml s = false) →
      rs.foldl scrubStep s = s := by
  induction rs with
  | nil => intro s _; rfl
  | cons re rest ih =>
    intro s h
    have hre : reMatch re s = false := h re (List.mem_cons_self re rest)
    have hstep : scrubStep s re = s := by simp [scrubStep, hre]
    have := ih s (fun ml hm => h ml (List.mem_cons_of_mem re hm))
    simpa [List.foldl, hstep] using this

theorem scrubString_id (s : List Char) (h : matchesAny s = false) :
    scrubString s = s := by
  apply foldl_scrub_id
  intro ml hm
  by_contra hcon
  have hr : reMatch ml s = true := by
    cases hx : reMatch ml s with
    | false => exact absurd hx hcon
    | true => rfl
  have : matchesAny s = true := List.any_eq_true.mpr ⟨ml, hm, hr⟩
  simp [this] at h

/-! ## Lifting string facts over the payload tree -/

mutual
theorem scrubVal_check : ∀ (v : JValue), valOk checkMB (scrubVal v) = true
  | .str s => by simpa [scrubVal, valOk] using scrubString_no_live_match s
  | .obj m => by simpa [scrubVal, valOk] using scrubMap_check m
  | .arr a => by simpa [scrubVal, valOk] using scrubSlice_check a
  | .num _ => rfl
  | .boolean _ => rfl
  | .null => rfl

theorem scrubMap_check : ∀ (m : JObj), objOk checkMB (scrubMap m) = true
  | .nil => rfl
  | .cons k v rest => by
    simp [scrubMap, objOk, scrubVal_check v, scrubMap_check rest]

theorem scrubSlice_check : ∀ (a : JArr), arrOk checkMB (scrubSlice a) = true
  | .nil => rfl
  | .cons v rest => by
    simp [scrubSlice, arrOk, scrubVal_check v, scrubSlice_check rest]
end

mutual
theorem scrubVal_id : ∀ (v : JValue), valOk noMatchB v = true → scrubVal v = v
  | .str s, h => by
    have hM : matchesAny s = false := by
      simpa [valOk, noMatchB] using h
    simp [scrubVal, scrubString_id s hM]
  | .obj m, h => by
    simp only [valOk] at h
    simp [scrubVal, scrubMap_id m h]
  | .arr a, h => by
    simp only [valOk] at h
    simp [scrubVal, scrubSlice_id a h]
  | .num _, _ => rfl
  | .boolean _, _ => rfl
  | .null, _ => rfl

theorem scrubMap_id : ∀ (m : JObj), objOk noMatchB m = true → scrubMap m = m
  | .nil, _ => rfl
  | .cons k v rest, h => by
    have h2 := (Bool.and_eq_true _ _).mp (by simpa [objOk] using h)
    simp [scrubMap, scrubVal_id v h2.1, scrubMap_id rest h2.2]

theorem scrubSlice_id : ∀ (a : JArr), arrOk noMatchB a = true → scrubSlice a = a
  | .nil, _ => rfl
  | .cons v rest, h => by
    have h2 := (Bool.and_eq_true _ _).mp (by simpa [arrOk] using h)
    simp [scrubSlice, scrubVal_id v h2.1, scrubSlice_id rest h2.2]
end

/-! ## C1 and C2 -/

/-- C1 (counterexample): after one `scrubPII` pass over a details map
holding `0x` + 40 hex digits + `1.2.3.4`, the surviving string
`[REDACTED]1.2.3.4` still matches the IPv4 pattern, so "no string value
matches any sensitive pattern" is false for this input. -/
theorem c1_counterexample :
    objOk noMatchB (scrubPII cxEvent).details = false := by decide

/-- C1 (amended): after one `scrubPII` pass, every string value at any
depth of `details` either matches none of the six sensitive patterns or
contains the `[REDACTED]` marker (i.e. a replacement occurred inside it;
a later pattern's replacement can splice the remaining text so that an
already-processed pattern matches again). -/
theorem c1_redaction_marker_invariant (e : MetricEvent) :
    objOk checkMB (scrubPII e).details = true :=
  scrubMap_check e.details

/-- C2 (counterexample): redaction is not idempotent — on the same
details map a second `scrubPII` pass redacts the uncovered `1.2.3.4`,
so `scrubMap (scrubMap D) ≠ scrubMap D`. -/
theorem c2_counterexample :
    ¬ (scrubMap (scrubMap cxDetails) = scrubMap cxDetails) := by
  intro h
  have h2 := congrArg (fun m => strOf (objLookup m msgKey)) h
  exact absurd h2 (by decide)

/-- C2 (amended): redaction is idempotent on every details map whose
once-redacted form no longer matches any sensitive pattern: then the
second pass changes nothing. -/
theorem c2_conditional_idempotence (D : JObj)
    (h : objOk noMatchB (scrubMap D) = true) :
    scrubMap (scrubMap D) = scrubMap D :=
  scrubMap_id (scrubMap D) h

/-- C2 witness: a benign map satisfies the hypothesis, and the amended
idempotence law holds on it. -/
theorem c2_conditional_idempotence_witness :
    objOk noMatchB (scrubMap benignDetails) = true ∧
      scrubMap (scrubMap benignDetails) = scrubMap benignDetails :=
  ⟨by decide, c2_conditional_idempotence benignDetails (by decide)⟩

/-! ## C5 and C6: the parser -/

/-- C5: a line that does not split into the four ` - `-delimited fields
is never dropped: the parser yields exactly one event with
`event_type = "raw"` and `details.raw_line` the verbatim line. -/
theorem c5_raw_fallback (tryTs : List Char → Option Nat) (now : Nat)
    (nodeId line : List Char)
    (h : (splitNGo sepDash 4 line).length < 4) :
    parseSwarmLogLine tryTs now nodeId line =
      some { nodeId := nodeId, timestamp := now, eventType := ("raw").toList,
             details := .cons (("raw_line").toList) (.str line) .nil } := by
  simp [parseSwarmLogLine, parseSwarmCore, h]

/-- C5 witness at a separator-free line. -/
theorem c5_raw_fallback_witness :
    (splitNGo sepDash 4 (("hello world").toList)).length < 4 ∧
      parseSwarmLogLine (fun _ => none) 0 (("n1").toList)
          (("hello world").toList) =
        some { nodeId := ("n1").toList, timestamp := 0,
               eventType := ("raw").toList,
               details := .cons (("raw_line").toList)
                 (.str (("hello world").toList)) .nil } :=
  ⟨by decide, c5_raw_fallback (fun _ => none) 0 (("n1").toList)
      (("hello world").toList) (by decide)⟩

theorem extractPeers_malformed (msg : List Char)
    (h : bracketsOk msg = false) : extractPeersFromLine msg = [] := by
  unfold bracketsOk at h
  cases h1 : findSub (['[']) msg with
  | none => simp [extractPeersFromLine, h1]
  | some st =>
    cases h2 : findSub ([']']) msg with
    | none => simp [extractPeersFromLine, h1, h2]
    | some en =>
      rw [h1, h2] at h
      have hle : en ≤ st := by
        by_contra hlt
        simp [Nat.lt_of_not_le hlt] at h
      simp [extractPeersFromLine, h1, h2, hle]

/-- C6 (counterexample): on the claim's exact input, the split on `", "`
finds no separator in `'a','b'`, and trimming `"' "` yields the single
peer `a','b` — not `["a","b"]`. -/
theorem c6_counterexample :
    arrStrings (objLookup
        (parseSwarmCore (fun _ => none) 0 (("n1").toList) c6Line).details
        (("peers").toList)) = some [("a','b").toList] ∧
    ¬ (arrStrings (objLookup
        (parseSwarmCore (fun _ => none) 0 (("n1").toList) c6Line).details
        (("peers").toList)) = some [("a").toList, ("b").toList]) :=
  ⟨by decide, by decide⟩

/-- C6 (amended): with comma-space separators — `['a', 'b']` — the parser
yields `details.peers == ["a","b"]` and `details.action == "join"`; and
any message with malformed brackets (no `[`, no `]`, or the first `]` not
after the first `[`) yields an empty peer list, not an error. -/
theorem c6_peer_extraction_amended :
    (arrStrings (objLookup
        (parseSwarmCore (fun _ => none) 0 (("n1").toList) c6LineSp).details
        (("peers").toList)) = some [("a").toList, ("b").toList]
     ∧ strOf (objLookup
        (parseSwarmCore (fun _ => none) 0 (("n1").toList) c6LineSp).details
        (("action").toList)) = some (("join").toList))
    ∧ ∀ msg, bracketsOk msg = false → extractPeersFromLine msg = [] :=
  ⟨by decide, extractPeers_malformed⟩

/-- C6 witness: the malformed-bracket clause at a bracket-free message. -/
theorem c6_peer_extraction_amended_witness :
    bracketsOk (("no brackets here").toList) = false ∧
      extractPeersFromLine (("no brackets here").toList) = [] :=
  ⟨by decide,
   c6_peer_extraction_amended.2 (("no brackets here").toList) (by decide)⟩

/-! ## C3: checkpoint advancement and batch retention -/

/-- C3: the checkpoint entry is set to the current line count exactly when
the post succeeds; a failed flush leaves the offsets map unchanged and
retains the whole (scrubbed-in-place) batch, and a subsequent line is
appended to the retained batch. -/
theorem c3_checkpoint_only_on_success :
    (∀ (resp : Option Nat) (batch : List MetricEvent) (p : List Char)
        (ln : Int) (offs : OffMap),
       (postBatchWithOffsetM resp batch p ln offs).2.1 =
         (if postStatusOk resp then offSet offs p ln else offs)
       ∧ (postBatchWithOffsetM resp batch p ln offs).1 = postStatusOk resp)
    ∧ (∀ bs tryTs now nid path resp st, postStatusOk resp = false →
         st.batch ≠ [] →
         (tailStep bs tryTs now nid path resp st .timerFire).1.offsets
             = st.offsets
         ∧ (tailStep bs tryTs now nid path resp st .timerFire).1.batch
             = st.batch.map scrubPII
         ∧ ((tailStep bs tryTs now nid path resp st .timerFire).1.batch).length
             = st.batch.length)
    ∧ (∀ bs tryTs now nid path resp st text, ¬ (bs ≤ st.batch.length + 1) →
         (tailStep bs tryTs now nid path resp st (.newLine text)).1.batch
           = st.batch ++ [parseSwarmCore tryTs now nid text]) := by
  refine ⟨?_, ?_, ?_⟩
  · intro resp batch p ln offs
    by_cases h : postStatusOk resp = true
    · simp [postBatchWithOffsetM, h]
    · have hf : postStatusOk resp = false := by simpa using h
      simp [postBatchWithOffsetM, hf]
  · intro bs tryTs now nid path resp st hfail hne
    have hlen : ¬ (st.batch.length = 0) := by
      simpa [List.length_eq_zero] using hne
    refine ⟨?_, ?_, ?_⟩ <;>
      simp [tailStep, hlen, postBatchWithOffsetM, hfail]
  · intro bs tryTs now nid path resp st text h
    simp [tailStep, parseSwarmLogLine, List.length_append, h]

/-- C3 witness: a failing flush (status 500) of a one-event batch leaves
the offsets map empty and keeps the batch. -/
theorem c3_checkpoint_only_on_success_witness :
    (tailStep 3 (fun _ => none) 0 (("n1").toList) (("p").toList) (some 500)
        ⟨[cxEvent], [], 5⟩ .timerFire).1.offsets = []
    ∧ (tailStep 3 (fun _ => none) 0 (("n1").toList) (("p").toList) (some 500)
        ⟨[cxEvent], [], 5⟩ .timerFire).1.batch = [cxEvent].map scrubPII :=
  ⟨(c3_checkpoint_only_on_success.2.1 3 (fun _ => none) 0 (("n1").toList)
      (("p").toList) (some 500) ⟨[cxEvent], [], 5⟩ (by decide) (by simp)).1,
   (c3_checkpoint_only_on_success.2.1 3 (fun _ => none) 0 (("n1").toList)
      (("p").toList) (some 500) ⟨[cxEvent], [], 5⟩ (by decide) (by simp)).2.1⟩

/-! ## C4: delivery client retry contract -/

theorem sendLoop_all_fail (resp : Nat → Option Nat)
    (h : ∀ k, is2xx (resp k) = false) :
    ∀ (r i : Nat), sendLoop resp i r = (false, r + 1, sleepSeq (i + 1) r) := by
  intro r
  induction r with
  | zero => intro i; simp [sendLoop, h i, sleepSeq]
  | succ n ih => intro i; simp [sendLoop, h i, sleepSeq, ih (i + 1)]

theorem sendLoop_success_at (resp : Nat → Option Nat) :
    ∀ (d r i : Nat), d ≤ r → (∀ k, k < d → is2xx (resp (i + k)) = false) →
      is2xx (resp (i + d)) = true →
      sendLoop resp i r = (true, d + 1, sleepSeq (i + 1) d) := by
  intro d
  induction d with
  | zero =>
    intro r i _ _ hok
    cases r <;> simp_all [sendLoop, sleepSeq]
  | succ dd ih =>
    intro r i hdr hfail hok
    cases r with
    | zero => omega
    | succ rr =>
      have h0 : is2xx (resp i) = false := by
        simpa using hfail 0 (Nat.succ_pos dd)
      have hr := ih rr (i + 1) (Nat.le_of_succ_le_succ hdr)
        (fun k hk => by
          have := hfail (k + 1) (Nat.succ_lt_succ hk)
          simpa [Nat.add_assoc, Nat.add_comm, Nat.add_left_comm] using this)
        (by
          have := hok
          simpa [Nat.add_assoc, Nat.add_comm, Nat.add_left_comm] using this)
      simp [sendLoop, h0, hr, sleepSeq]

/-- C4 (amended): the transmitter treats exactly `[200,300)` as success
and retries otherwise with backoff `i+1` seconds after attempt `i`, for
`RetryCount + 1` total attempts before reporting failure; a response at
attempt `d` in `[200,300)` stops the loop after `d + 1` attempts.  The
log-batch poster (`postBatchWithOffset`), by contrast, accepts any status
below 300 — including 1xx — as success and performs no in-call retry. -/
theorem c4_retry_contract :
    (∀ c, is2xx (some c) = (decide (200 ≤ c) && decide (c < 300)))
    ∧ is2xx none = false
    ∧ (∀ (rc : Nat) (resp : Nat → Option Nat),
        (∀ k, is2xx (resp k) = false) →
        sendWithRetry rc resp = (false, rc + 1, sleepSeq 1 rc))
    ∧ (∀ (rc : Nat) (resp : Nat → Option Nat) (d : Nat), d ≤ rc →
        (∀ k, k < d → is2xx (resp k) = false) → is2xx (resp d) = true →
        sendWithRetry rc resp = (true, d + 1, sleepSeq 1 d))
    ∧ (∀ c, postStatusOk (some c) = decide (c < 300)) := by
  refine ⟨fun c => rfl, rfl, ?_, ?_, fun c => rfl⟩
  · intro rc resp h
    simpa using sendLoop_all_fail resp h rc 0
  · intro rc resp d hdr hfail hok
    simpa using sendLoop_success_at resp d rc 0 hdr
      (by simpa using hfail) (by simpa using hok)

/-- C4 witness: with `RetryCount = 2` and a permanently failing endpoint
(status 500), the client makes 3 attempts, sleeps 1s then 2s, and fails. -/
theorem c4_retry_contract_witness :
    sendWithRetry 2 (fun _ => some 500) = (false, 2 + 1, sleepSeq 1 2) :=
  c4_retry_contract.2.2.1 2 (fun _ => some 500) (fun _ => rfl)

/-- C4 (counterexample): a status of 150 — outside `[200,300)` — is
treated as success by the log-batch delivery path, which also advances the
checkpoint; the claim would require it to be a retryable failure. -/
theorem c4_counterexample :
    (postBatchWithOffsetM (some 150) [] (("p").toList) 7 []).1 = true
    ∧ (postBatchWithOffsetM (some 150) [] (("p").toList) 7 []).2.1
        = offSet [] (("p").toList) 7
    ∧ ¬ (200 ≤ 150) := ⟨by decide, by decide, by decide⟩

/-! ## C7: down detector alert behavior -/

/-- C7 (counterexample): with delay 300s and a failing Telegram send,
`alertSent` is never set, so two consecutive silent ticks each attempt a
send — two outbound alert attempts within the same silence episode. -/
theorem c7_counterexample :
    (detRun 300 ⟨0, false⟩
        [DetInp.tick 301 false, DetInp.tick 303 false]).2 = 2 := by decide

theorem detRun_quiet_after_sent (delay : Nat) :
    ∀ (inps : List DetInp), inps.all isTick = true →
      ∀ st : DetSt, st.alertSent = true →
        (detRun delay st inps).2 = 0 := by
  intro inps
  induction inps with
  | nil => intro _ st _; rfl
  | cons inp rest ih =>
    intro hall st h
    have hparts : isTick inp = true ∧ rest.all isTick = true := by
      simpa [List.all_cons, Bool.and_eq_true] using hall
    cases inp with
    | activity n => simp [isTick] at hparts
    | tick now ok =>
      have hstep : detStep delay st (.tick now ok) = (st, false) := by
        simp [detStep, h]
      simp [detRun, hstep]
      exact ih hparts.2 st h

/-- C7 (amended): after the delay elapses the detector attempts a send on
every 2-second poll tick until one succeeds: a failed send is logged and
leaves the state unchanged (so it is retried on the next tick), a
successful send sets `alertSent`, and once `alertSent` holds no further
send is attempted for the rest of the activity-free episode; the default
delay is 300s. -/
theorem c7_alert_once_per_episode :
    (∀ delay st now ok, st.alertSent = true →
        detStep delay st (.tick now ok) = (st, false))
    ∧ (∀ delay (st : DetSt) now, st.alertSent = false →
        delay < now - st.lastEventTime →
        detStep delay st (.tick now false) = (st, true)
        ∧ detStep delay st (.tick now true)
            = ({ st with alertSent := true }, true))
    ∧ (∀ delay st inps, inps.all isTick = true → st.alertSent = true →
        (detRun delay st inps).2 = 0)
    ∧ detDelay 0 = 300 := by
  refine ⟨?_, ?_, ?_, rfl⟩
  · intro delay st now ok h
    simp [detStep, h]
  · intro delay st now h hd
    constructor <;> simp [detStep, h, hd]
  · intro delay st inps hall h
    exact detRun_quiet_after_sent delay inps hall st h

/-- C7 witness: after a successful alert, a later silent tick attempts
nothing. -/
theorem c7_alert_once_per_episode_witness :
    (detRun 300 ⟨0, true⟩ [DetInp.tick 400 true]).2 = 0 :=
  c7_alert_once_per_episode.2.2.1 300 ⟨0, true⟩ [DetInp.tick 400 true]
    (by decide) rfl

/-! ## C8: flush triggers -/

/-- C8 (counterexample): the flush-interval timer elapses with an empty
batch and no flush is attempted, so "a flush is attempted exactly when
… the flush-interval timer elapses …" fails for this step. -/
theorem c8_counterexample :
    (tailStep 3 (fun _ => none) 0 (("n1").toList) (("p").toList) (some 200)
        ⟨[], [], 0⟩ .timerFire).2.flushed = false := rfl

/-- C8 (amended): a flush is attempted exactly when a parsed line makes
the batch reach the size threshold, when the flush timer fires with a
non-empty batch, or at shutdown with a non-empty pending batch; moreover
the flush timer is reset on every appended line (and after every timer
fire), so the interval is measured from the last append or fire, not from
the last flush attempt; the default interval selector yields 10s. -/
theorem c8_flush_triggers :
    (∀ bs tryTs now nid path resp (st : TailSt) text,
        ((tailStep bs tryTs now nid path resp st (.newLine text)).2.flushed
            = decide (bs ≤ st.batch.length + 1))
        ∧ (tailStep bs tryTs now nid path resp st (.newLine text)).2.timerReset
            = true)
    ∧ (∀ bs tryTs now nid path resp (st : TailSt),
        ((tailStep bs tryTs now nid path resp st .timerFire).2.flushed
            = decide (st.batch.length ≠ 0))
        ∧ (tailStep bs tryTs now nid path resp st .timerFire).2.timerReset
            = true)
    ∧ (∀ bs tryTs now nid path resp (st : TailSt),
        (tailStep bs tryTs now nid path resp st .shutdown).2.flushed
          = decide (st.batch.length ≠ 0))
    ∧ flushIntervalFor 0 = 10 := by
  refine ⟨?_, ?_, ?_, rfl⟩
  · intro bs tryTs now nid path resp st text
    by_cases h : bs ≤ st.batch.length + 1 <;>
      simp [tailStep, parseSwarmLogLine, List.length_append, h]
  · intro bs tryTs now nid path resp st
    by_cases h : st.batch.length = 0 <;> simp [tailStep, h]
  · intro bs tryTs now nid path resp st
    by_cases h : st.batch.length = 0 <;> simp [tailStep, h]

/-! ## C9: activity signals and the resume skip -/

/-- C9 (counterexample): with a checkpoint of 1 and two incoming lines,
the skip loop consumes the first line silently, so only one activity
signal is sent although two lines were read — not one per line read. -/
theorem c9_counterexample :
    runSignals 1 [("first").toList, ("second").toList] = 1
    ∧ (1 : Nat) ≠ 2 := ⟨rfl, by decide⟩

theorem resumeSkip_length (seekLine : Int) :
    ∀ (lines : List (List Char)) (ln : Int),
      ((resumeSkip seekLine ln lines).2).length
        = lines.length - min lines.length (seekLine - ln).toNat := by
  intro lines
  induction lines with
  | nil => intro ln; simp [resumeSkip]
  | cons l rest ih =>
    intro ln
    by_cases h : ln < seekLine
    · have := ih (ln + 1)
      simp only [resumeSkip, h, if_true, List.length_cons, this]
      omega
    · simp only [resumeSkip, h, if_false, List.length_cons]
      omega

/-- C9 (amended): the tailer sends one (non-blocking, latest-wins)
activity signal per line processed by the main loop, but none for the
lines silently consumed while resuming up to the checkpoint: the signal
count is the number of lines beyond the first `seekLine`. -/
theorem c9_activity_signals :
    ∀ (seekLine : Int) (lines : List (List Char)),
      runSignals seekLine lines
        = lines.length - min lines.length seekLine.toNat := by
  intro sk lines
  simpa using resumeSkip_length sk lines 0

/-! ## C10: checkpoint-store startup fallback -/

/-- C10: a missing offsets file yields an empty store; a read error or a
JSON parse failure is swallowed by `Start` (logged, never fatal) and also
yields an empty store; and with an empty store every source takes the
last-N-lines fallback window (`InitialTailLines`, default 100, clamped at
line 0), or line 0 if the file could not be counted. -/
theorem c10_offsets_fallback :
    (∀ parseJson, startOffsets parseJson .notExist = [])
    ∧ (∀ parseJson, startOffsets parseJson .readErr = [])
    ∧ (∀ parseJson data, parseJson data = none →
        startOffsets parseJson (.ok data) = [])
    ∧ (∀ path it total, seekLineFor [] path it (some total)
        = (if total - (if it ≤ 0 then 100 else it) < 0 then 0
           else total - (if it ≤ 0 then 100 else it)))
    ∧ (∀ path it, seekLineFor [] path it none = 0) := by
  refine ⟨fun _ => rfl, fun _ => rfl, ?_, fun path it total => rfl,
    fun path it => rfl⟩
  intro parseJson data h
  simp [startOffsets, loadOffsets, h]

/-- C10 witness: an unparseable offsets file still starts empty. -/
theorem c10_offsets_fallback_witness :
    startOffsets (fun _ => none) (.ok (("not json").toList)) = [] :=
  c10_offsets_fallback.2.2.1 (fun _ => none) (("not json").toList) rfl

end Gswarm
